import Mathlib

/-!
A verification development for the English_Bot repository: a shallow
embedding of the pagination controller, callback protocol, query-token
cache, record-store operations and the edit-field flow found in
src/bot.py and src/database.py. Python strings are modelled as lists of
characters; SQLite rows as a list of records; Python exceptions as
explicit error values.
-/

namespace EnglishBot

/-- Python strings, modelled as lists of characters. -/
abbrev Str := List Char

/-- Python str.strip: drop whitespace from both ends. -/
def pyStrip (s : Str) : Str :=
  ((s.dropWhile Char.isWhitespace).reverse.dropWhile Char.isWhitespace).reverse

/-- Python str.lower (ASCII case folding, which covers the A-Z alphabet the
bot's letter index uses). -/
def pyLower (s : Str) : Str := s.map Char.toLower

/-- The decimal digit character for d (meaningful for d < 10). -/
def digitChar10 (d : Nat) : Char := Char.ofNat (48 + d)

/-- Little-endian base-10 digits with explicit fuel (fuel at least n
makes it total), structurally recursive so the kernel can evaluate it. -/
def natDigitsAux : Nat → Nat → List Nat
  | 0, _ => []
  | fuel + 1, n => if n = 0 then [] else n % 10 :: natDigitsAux fuel (n / 10)

/-- Decimal digit string of a natural number, most significant digit
first, as produced by Python str() on a nonnegative int. -/
def pyNatRepr (n : Nat) : Str :=
  if n = 0 then ['0'] else (natDigitsAux n n).reverse.map digitChar10

/-- Python str() of an int. -/
def pyIntRepr (z : Int) : Str :=
  if z < 0 then '-' :: pyNatRepr z.natAbs else pyNatRepr z.toNat

/-- Numeric value of a digit string, most significant digit first. -/
def digitsVal (ds : Str) : Nat :=
  ds.foldl (fun a c => 10 * a + (c.toNat - 48)) 0

/-- The string is nonempty and all its characters are decimal digits. -/
def isDigits (ds : Str) : Bool := !ds.isEmpty && ds.all Char.isDigit

/-- Python int(s): surrounding whitespace is allowed, then an optional
sign and at least one decimal digit. none models the ValueError raised
on any other input. -/
def pyParseInt (s : Str) : Option Int :=
  if pyStrip s = [] then none
  else if (pyStrip s).head? = some '-' then
    (if isDigits (pyStrip s).tail then some (-(digitsVal (pyStrip s).tail : Int)) else none)
  else if (pyStrip s).head? = some '+' then
    (if isDigits (pyStrip s).tail then some ((digitsVal (pyStrip s).tail : Int)) else none)
  else if isDigits (pyStrip s) then some ((digitsVal (pyStrip s) : Int)) else none

/-- The part of s before the first occurrence of c, paired with the
remainder after that occurrence (none when c is absent). One step of
Python str.split(sep, maxsplit). -/
def splitFirst (c : Char) : Str → Str × Option Str
  | [] => ([], none)
  | a :: s =>
    if a == c then ([], some s)
    else (a :: (splitFirst c s).1, (splitFirst c s).2)

/-- Python s.split(c, n): split on c at most n times. -/
def splitN (c : Char) : Nat → Str → List Str
  | 0, s => [s]
  | n + 1, s =>
    match splitFirst c s with
    | (p, some post) => p :: splitN c n post
    | (p, none) => [p]

/-- Python s.split(c) with no limit: a string of length l splits at most
l times, so the length serves as fuel. -/
def splitAll (c : Char) (s : Str) : List Str := splitN c s.length s

/-- Python str.startswith. -/
def startsWith : Str → Str → Bool
  | [], _ => true
  | _ :: _, [] => false
  | p :: ps, c :: cs => p == c && startsWith ps cs

/-- Substring containment: p occurs contiguously inside s. -/
def substrOf (p : Str) : Str → Bool
  | [] => p.isEmpty
  | c :: s => startsWith p (c :: s) || substrOf p s

/-- The callback actions of src/bot.py with their parameters, one
constructor per action listed in the protocol. -/
inductive Action where
  | all (page : Int)
  | letter (l : Str) (page : Int)
  | find (token : Str) (page : Int)
  | quizShow (id : Int)
  | quizNext
  | quizDel (id : Int)
  | editPick (id : Int)
  | editField (fieldName : Str) (id : Int)
  | menu (a : Str)
  | cancel
  | nop
  deriving DecidableEq

/-- The callback_data strings built by the keyboards of src/bot.py
(kb_pager, kb_letters, kb_quiz, kb_edit_pick, kb_edit_fields, kb_menu,
kb_cancel): the action name and its fields joined by the separator. -/
def encodeAction : Action → Str
  | .all p => "ALL|".data ++ pyIntRepr p
  | .letter l p => "LET|".data ++ l ++ '|' :: pyIntRepr p
  | .find t p => "FIND|".data ++ t ++ '|' :: pyIntRepr p
  | .quizShow i => "QUIZ|SHOW|".data ++ pyIntRepr i
  | .quizNext => "QUIZ|NEXT|0".data
  | .quizDel i => "QUIZ|DEL|".data ++ pyIntRepr i
  | .editPick i => "EDIT|PICK|".data ++ pyIntRepr i
  | .editField f i => "EDIT|FIELD|".data ++ f ++ '|' :: pyIntRepr i
  | .menu a => "MENU|".data ++ a
  | .cancel => "CANCEL".data
  | .nop => "NOP".data

/-- The parameter-alphabet restriction of the protocol: letters, tokens
and field names carried in a payload contain no separator character. -/
def sepOK : Action → Bool
  | .letter l _ => decide ('|' ∉ l)
  | .find t _ => decide ('|' ∉ t)
  | .editField f _ => decide ('|' ∉ f)
  | _ => true

/-- Outcome of routing one callback payload. ok means the handler decoded
an action; fault means a Python exception (ValueError from tuple
unpacking or int(), IndexError from list indexing) escapes the handler;
ignored means no handler matched or the handler fell through silently. -/
inductive DecodeResult where
  | ok (a : Action)
  | fault
  | ignored
  deriving DecidableEq

/-- cb_menu: underscore, action = call.data.split(sep, 1). -/
def cb_menu (s : Str) : DecodeResult :=
  match splitFirst '|' s with
  | (_, some rest) => .ok (.menu rest)
  | (_, none) => .fault

/-- cb_all: underscore, page_s = call.data.split(sep, 1); int(page_s).
A missing field is a ValueError from unpacking; a non-decimal page is a
ValueError from int(). -/
def cb_all (s : Str) : DecodeResult :=
  match splitFirst '|' s with
  | (_, some pageS) =>
    match pyParseInt pageS with
    | some p => .ok (.all p)
    | none => .fault
  | (_, none) => .fault

/-- cb_letter: underscore, letter, page_s = call.data.split(sep, 2). -/
def cb_letter (s : Str) : DecodeResult :=
  match splitN '|' 2 s with
  | [_, letterS, pageS] =>
    match pyParseInt pageS with
    | some p => .ok (.letter letterS p)
    | none => .fault
  | _ => .fault

/-- cb_find: underscore, token, page_s = call.data.split(sep, 2). -/
def cb_find (s : Str) : DecodeResult :=
  match splitN '|' 2 s with
  | [_, token, pageS] =>
    match pyParseInt pageS with
    | some p => .ok (.find token p)
    | none => .fault
  | _ => .fault

/-- cb_quiz: underscore, action, id_s = call.data.split(sep, 2); the NEXT
branch returns before entry_id = int(id_s); an unknown action with a
parseable id falls off the end of the function silently. -/
def cb_quiz (s : Str) : DecodeResult :=
  match splitN '|' 2 s with
  | [_, action, idS] =>
    if action = "NEXT".data then .ok .quizNext
    else
      match pyParseInt idS with
      | none => .fault
      | some i =>
        if action = "SHOW".data then .ok (.quizShow i)
        else if action = "DEL".data then .ok (.quizDel i)
        else .ignored
  | _ => .fault

/-- cb_edit: parts = call.data.split(sep); action = parts(1); the PICK
branch reads parts(2), the FIELD branch parts(2) and parts(3); a missing
part is an IndexError; any other action reaches the final ack. -/
def cb_edit (s : Str) : DecodeResult :=
  match splitAll '|' s with
  | _ :: action :: rest =>
    if action = "PICK".data then
      match rest with
      | idS :: _ =>
        match pyParseInt idS with
        | some i => .ok (.editPick i)
        | none => .fault
      | [] => .fault
    else if action = "FIELD".data then
      match rest with
      | fld :: idS :: _ =>
        match pyParseInt idS with
        | some i => .ok (.editField fld i)
        | none => .fault
      | _ => .fault
    else .ignored
  | _ => .fault

/-- The dispatcher registrations of main() in src/bot.py, in registration
order: prefix (or equality) filters route the payload to one handler. -/
def decodeData (s : Str) : DecodeResult :=
  if startsWith "MENU|".data s then cb_menu s
  else if s = "CANCEL".data then .ok .cancel
  else if s = "NOP".data then .ok .nop
  else if startsWith "ALL|".data s then cb_all s
  else if startsWith "LET|".data s then cb_letter s
  else if startsWith "FIND|".data s then cb_find s
  else if startsWith "QUIZ|".data s then cb_quiz s
  else if startsWith "EDIT|".data s then cb_edit s
  else .ignored

/-- PAGE_SIZE from src/bot.py. -/
def PAGE_SIZE : Nat := 15

/-- pages from src/bot.py: max(1, ceil(total / PAGE_SIZE)). For a natural
total and positive divisor, ceil(total / 15) is (total + 14) / 15 in
integer division. -/
def pages (total : Nat) : Nat := max 1 ((total + (PAGE_SIZE - 1)) / PAGE_SIZE)

/-- page = min(max(page, 0), tp - 1), the clamping line shared by every
render function in src/bot.py. -/
def clampPage (page : Int) (tp : Nat) : Int := min (max page 0) ((tp : Int) - 1)

/-- A row of the entries table created by init_db in src/database.py. -/
structure Entry where
  id : Nat
  user_id : Nat
  en : Str
  en_norm : Str
  ru : Str
  ru_norm : Str
  ex : Option Str
  tags : Option Str
  created_at : Str
  deriving DecidableEq

/-- The entries table together with the AUTOINCREMENT id counter. -/
structure DB where
  entries : List Entry
  nextId : Nat
  deriving DecidableEq

/-- Does the owner already have a row with this normalized key (the
UNIQUE(user_id, en_norm) conflict test). -/
def hasKey (db : DB) (user_id : Nat) (en_norm : Str) : Bool :=
  db.entries.any (fun e => e.user_id == user_id && e.en_norm == en_norm)

/-- upsert_entry from src/database.py: INSERT, and ON CONFLICT(user_id,
en_norm) DO UPDATE SET en, ru, ru_norm, example, tags - id and
created_at of the conflicting row are not in the SET list. The now
argument stands for datetime.utcnow().isoformat(). -/
def upsert_entry (db : DB) (user_id : Nat) (en ru : Str)
    (ex tags : Option Str) (now : Str) : DB :=
  let en_norm := pyLower (pyStrip en)
  let ru_norm := pyLower (pyStrip ru)
  if hasKey db user_id en_norm then
    { db with
      entries := db.entries.map (fun e =>
        if e.user_id == user_id && e.en_norm == en_norm then
          { e with en := pyStrip en, ru := pyStrip ru, ru_norm := ru_norm,
                   ex := ex, tags := tags }
        else e) }
  else
    { entries := db.entries ++
        [{ id := db.nextId, user_id := user_id, en := pyStrip en,
           en_norm := en_norm, ru := pyStrip ru, ru_norm := ru_norm,
           ex := ex, tags := tags, created_at := now }],
      nextId := db.nextId + 1 }

/-- count_all from src/database.py. -/
def count_all (db : DB) (user_id : Nat) : Nat :=
  (db.entries.filter (fun e => e.user_id == user_id)).length

/-- The WHERE clause of count_by_letter and list_by_letter:
substr(en_norm, 1, 1) equals the normalized letter. -/
def letterMatch (letter : Str) (e : Entry) : Bool :=
  e.en_norm.take 1 == (pyLower (pyStrip letter)).take 1

/-- count_by_letter from src/database.py. -/
def count_by_letter (db : DB) (user_id : Nat) (letter : Str) : Nat :=
  (db.entries.filter (fun e => e.user_id == user_id && letterMatch letter e)).length

/-- The LIKE filter of count_find and find_entries: en_norm LIKE qn OR
ru_norm LIKE qn with qn the normalized query wrapped in percent signs.
For a query free of LIKE metacharacters this is substring containment. -/
def findMatch (q : Str) (e : Entry) : Bool :=
  substrOf (pyLower (pyStrip q)) e.en_norm ||
  substrOf (pyLower (pyStrip q)) e.ru_norm

/-- count_find from src/database.py. -/
def count_find (db : DB) (user_id : Nat) (q : Str) : Nat :=
  (db.entries.filter (fun e => e.user_id == user_id && findMatch q e)).length

/-- Lexicographic comparison of char lists, the ORDER BY en_norm ASC
order of the list queries. -/
def strLe : Str → Str → Bool
  | [], _ => true
  | _ :: _, [] => false
  | a :: as, b :: bs => if a == b then strLe as bs else decide (a.toNat < b.toNat)

/-- Insertion into a list sorted by en_norm. -/
def insertByKey (e : Entry) : List Entry → List Entry
  | [] => [e]
  | x :: xs => if strLe e.en_norm x.en_norm then e :: x :: xs else x :: insertByKey e xs

/-- Sorting by en_norm, the ORDER BY of the list queries. -/
def sortByEnNorm (l : List Entry) : List Entry := l.foldr insertByKey []

/-- list_entries from src/database.py: the owner's rows ordered by
en_norm, LIMIT limit OFFSET offset. -/
def list_entries (db : DB) (user_id : Nat) (limit offset : Nat) : List Entry :=
  ((sortByEnNorm (db.entries.filter (fun e => e.user_id == user_id))).drop offset).take limit

/-- list_by_letter from src/database.py. -/
def list_by_letter (db : DB) (user_id : Nat) (letter : Str) (limit offset : Nat) : List Entry :=
  ((sortByEnNorm (db.entries.filter (fun e =>
    e.user_id == user_id && letterMatch letter e))).drop offset).take limit

/-- find_entries from src/database.py. -/
def find_entries (db : DB) (user_id : Nat) (q : Str) (limit offset : Nat) : List Entry :=
  ((sortByEnNorm (db.entries.filter (fun e =>
    e.user_id == user_id && findMatch q e))).drop offset).take limit

/-- Python dict lookup on an insertion-ordered association list. -/
def dictGet {α β : Type} [BEq α] : List (α × β) → α → Option β
  | [], _ => none
  | (k, v) :: d, k0 => if k == k0 then some v else dictGet d k0

/-- Python dict item assignment: overwrite in place, else append. -/
def dictSet {α β : Type} [BEq α] : List (α × β) → α → β → List (α × β)
  | [], k, v => [(k, v)]
  | (k1, v1) :: d, k, v => if k1 == k then (k1, v) :: d else (k1, v1) :: dictSet d k v

/-- FIND_CACHE from src/bot.py: user_id to (token to query). -/
abbrev FindCache := List (Nat × List (Str × Str))

/-- The cache write of send_find:
FIND_CACHE.setdefault(uid, dict())(token) = q. -/
def cache_issue (c : FindCache) (uid : Nat) (token q : Str) : FindCache :=
  dictSet c uid (dictSet ((dictGet c uid).getD []) token q)

/-- The cache read of edit_find: FIND_CACHE.get(uid, dict()).get(token). -/
def cache_resolve (c : FindCache) (uid : Nat) (token : Str) : Option Str :=
  dictGet ((dictGet c uid).getD []) token

/-- A sequence of send_find cache writes applied in order. -/
def applyIssues (c : FindCache) : List (Nat × Str × Str) → FindCache
  | [] => c
  | (uid, t, q) :: ops => applyIssues (cache_issue c uid t q) ops

/-- The page data computed by one render function: the total count, the
page count, the clamped page, the offset passed to the store and the
fetched rows. -/
structure Rendered where
  total : Nat
  tp : Nat
  page : Int
  offset : Int
  rows : List Entry
  deriving DecidableEq

/-- send_all and edit_all from src/bot.py: count, pages, clamp, fetch. -/
def edit_all_model (db : DB) (uid : Nat) (page : Int) : Rendered :=
  let total := count_all db uid
  let tp := pages total
  let pg := clampPage page tp
  { total := total, tp := tp, page := pg, offset := pg * (PAGE_SIZE : Int),
    rows := list_entries db uid PAGE_SIZE (pg * (PAGE_SIZE : Int)).toNat }

/-- edit_letter from src/bot.py. -/
def edit_letter_model (db : DB) (uid : Nat) (letter : Str) (page : Int) : Rendered :=
  let total := count_by_letter db uid letter
  let tp := pages total
  let pg := clampPage page tp
  { total := total, tp := tp, page := pg, offset := pg * (PAGE_SIZE : Int),
    rows := list_by_letter db uid letter PAGE_SIZE (pg * (PAGE_SIZE : Int)).toNat }

/-- Result of a search-page render: the expired notice or a page. -/
inductive FindRender where
  | expired
  | rendered (r : Rendered)
  deriving DecidableEq

/-- edit_find from src/bot.py: the token is resolved through FIND_CACHE
first; Python if not q treats a missing token and an empty cached query
alike, answers with the search-expired alert and returns before any
database call. -/
def edit_find_model (c : FindCache) (db : DB) (uid : Nat) (token : Str)
    (page : Int) : FindRender :=
  match cache_resolve c uid token with
  | none => .expired
  | some q =>
    if q = [] then .expired
    else
      let total := count_find db uid q
      let tp := pages total
      let pg := clampPage page tp
      .rendered { total := total, tp := tp, page := pg, offset := pg * (PAGE_SIZE : Int),
                  rows := find_entries db uid q PAGE_SIZE (pg * (PAGE_SIZE : Int)).toNat }

/-- send_find from src/bot.py: store the query under a fresh token (the
uuid4 hex token is a parameter here), then render the requested page. -/
def send_find_model (c : FindCache) (db : DB) (uid : Nat) (q : Str)
    (token : Str) (page : Int) : FindCache × Rendered :=
  let c1 := cache_issue c uid token q
  let total := count_find db uid q
  let tp := pages total
  let pg := clampPage page tp
  (c1, { total := total, tp := tp, page := pg, offset := pg * (PAGE_SIZE : Int),
         rows := find_entries db uid q PAGE_SIZE (pg * (PAGE_SIZE : Int)).toNat })

/-- Application of the SET clauses of update_entry to one row: each
non-None argument updates its field, example and tags store NULL when
the stripped value is empty. -/
def applyUpdate (en ru ex tags : Option Str) (e : Entry) : Entry :=
  let e1 := match en with
    | some v => { e with en := pyStrip v, en_norm := pyLower (pyStrip v) }
    | none => e
  let e2 := match ru with
    | some v => { e1 with ru := pyStrip v, ru_norm := pyLower (pyStrip v) }
    | none => e1
  let e3 := match ex with
    | some v => { e2 with ex := if pyStrip v = [] then none else some (pyStrip v) }
    | none => e2
  match tags with
  | some v => { e3 with tags := if pyStrip v = [] then none else some (pyStrip v) }
  | none => e3

/-- update_entry from src/database.py: with no SET clause it returns 0;
otherwise it updates the rows matching WHERE user_id AND id and returns
the rowcount. The error case is the sqlite3 IntegrityError on
UNIQUE(user_id, en_norm): it can only fire when en is among the SET
clauses, some row is actually updated, and another row of the same owner
already carries the new normalized key; the statement is then rolled
back. -/
def update_entry (db : DB) (user_id entry_id : Nat)
    (en ru ex tags : Option Str) : Except Unit (DB × Nat) :=
  if en = none ∧ ru = none ∧ ex = none ∧ tags = none then .ok (db, 0)
  else
    let hit := fun (e : Entry) => e.user_id == user_id && e.id == entry_id
    let n := (db.entries.filter hit).length
    let conflict : Bool :=
      match en with
      | some v => n != 0 && db.entries.any (fun e =>
          e.user_id == user_id && e.id != entry_id && e.en_norm == pyLower (pyStrip v))
      | none => false
    if conflict then .error ()
    else .ok ({ db with entries := db.entries.map (fun e =>
           if hit e then applyUpdate en ru ex tags e else e) }, n)

/-- The reply branch taken by on_edit_value. -/
inductive EditOutcome where
  | noContext
  | unknownField
  | conflictEn
  | dbConstraint
  | notUpdated
  | updated
  deriving DecidableEq

/-- on_edit_value from src/bot.py, the awaiting-edit-field-value handler.
stateData is the FSM payload (edit_entry_id, edit_field); Python
if not entry_id or not field is falsy on id 0 and on the empty field
name; the sentinel check value equals dash runs before the field name is
inspected; an IntegrityError maps to the dedicated already-exists reply
exactly when the edited field is en. -/
def on_edit_value (db : DB) (uid : Nat) (stateData : Option (Nat × Str))
    (text : Str) : EditOutcome × DB :=
  match stateData with
  | none => (.noContext, db)
  | some (entry_id, fieldName) =>
    let v0 := pyStrip text
    if entry_id = 0 ∨ fieldName = [] then (.noContext, db)
    else
      let v := if v0 = "-".data then [] else v0
      if fieldName = "en".data ∨ fieldName = "ru".data ∨
         fieldName = "example".data ∨ fieldName = "tags".data then
        match update_entry db uid entry_id
            (if fieldName = "en".data then some v else none)
            (if fieldName = "ru".data then some v else none)
            (if fieldName = "example".data then some v else none)
            (if fieldName = "tags".data then some v else none) with
        | .error _ =>
          if fieldName = "en".data then (.conflictEn, db) else (.dbConstraint, db)
        | .ok (db2, n) => if n = 0 then (.notUpdated, db2) else (.updated, db2)
      else (.unknownField, db)

/-! Helper lemmas about the string primitives. -/

theorem splitFirst_not_mem {c : Char} : ∀ {s : Str}, c ∉ s → splitFirst c s = (s, none) := by
  intro s h
  induction s with
  | nil => rfl
  | cons a s ih =>
    have h1 : (a == c) = false := by
      apply beq_eq_false_iff_ne.mpr
      intro hac
      exact h (hac ▸ List.mem_cons_self a s)
    have h2 : c ∉ s := fun hc => h (List.mem_cons_of_mem a hc)
    simp [splitFirst, h1, ih h2]

theorem splitFirst_append {c : Char} {post : Str} :
    ∀ {p : Str}, c ∉ p → splitFirst c (p ++ c :: post) = (p, some post) := by
  intro p h
  induction p with
  | nil => simp [splitFirst]
  | cons a p ih =>
    have h1 : (a == c) = false := by
      apply beq_eq_false_iff_ne.mpr
      intro hac
      exact h (hac ▸ List.mem_cons_self a p)
    have h2 : c ∉ p := fun hc => h (List.mem_cons_of_mem a hc)
    simp [splitFirst, h1, ih h2]

theorem splitFirst_some_length {c : Char} :
    ∀ {s p q : Str}, splitFirst c s = (p, some q) → q.length < s.length := by
  intro s
  induction s with
  | nil => intro p q h; simp [splitFirst] at h
  | cons a s ih =>
    intro p q h
    by_cases ha : (a == c) = true
    · rw [splitFirst, if_pos ha] at h
      injection h with h1 h2
      injection h2 with h2
      subst h2
      simp
    · rw [splitFirst, if_neg ha] at h
      rcases hs : splitFirst c s with ⟨p1, o⟩
      rw [hs] at h
      cases o with
      | none => simp at h
      | some q1 =>
        injection h with h1 h2
        injection h2 with h2
        subst h2
        have := ih hs
        simp only [List.length_cons]
        omega

theorem splitN_not_mem {c : Char} {s : Str} (h : c ∉ s) : ∀ n, splitN c n s = [s] := by
  intro n
  cases n with
  | zero => rfl
  | succ n => simp [splitN, splitFirst_not_mem h]

theorem splitN_succ_append {c : Char} {p post : Str} (h : c ∉ p) (n : Nat) :
    splitN c (n + 1) (p ++ c :: post) = p :: splitN c n post := by
  simp [splitN, splitFirst_append h]

theorem splitN_eq_of_le {c : Char} :
    ∀ (n : Nat) {m : Nat} {s : Str}, s.length ≤ n → s.length ≤ m →
      splitN c n s = splitN c m s := by
  intro n
  induction n with
  | zero =>
    intro m s hn _
    have : s = [] := List.length_eq_zero.mp (Nat.le_zero.mp hn)
    subst this
    cases m with
    | zero => rfl
    | succ m => simp [splitN, splitFirst]
  | succ n ih =>
    intro m s hn hm
    cases m with
    | zero =>
      have : s = [] := List.length_eq_zero.mp (Nat.le_zero.mp hm)
      subst this
      simp [splitN, splitFirst]
    | succ m =>
      simp only [splitN]
      rcases hs : splitFirst c s with ⟨p1, o⟩
      cases o with
      | none => rfl
      | some q =>
        have hq : q.length < s.length := splitFirst_some_length hs
        have heq := ih (m := m) (s := q) (by omega) (by omega)
        show p1 :: splitN c n q = p1 :: splitN c m q
        rw [heq]

theorem splitAll_append {c : Char} {p post : Str} (h : c ∉ p) :
    splitAll c (p ++ c :: post) = p :: splitAll c post := by
  unfold splitAll
  have hl : (p ++ c :: post).length = (p.length + post.length) + 1 := by
    simp [List.length_append]
    omega
  rw [hl, splitN_succ_append h]
  exact congrArg _ (splitN_eq_of_le _ (by omega) le_rfl)

theorem splitAll_not_mem {c : Char} {s : Str} (h : c ∉ s) : splitAll c s = [s] :=
  splitN_not_mem h _

theorem dropWhile_eq_self_of {p : Char → Bool} :
    ∀ {s : Str}, (∀ x ∈ s, p x = false) → s.dropWhile p = s := by
  intro s h
  cases s with
  | nil => rfl
  | cons a s => simp [List.dropWhile_cons, h a (List.mem_cons_self a s)]

theorem pyStrip_eq_self {s : Str} (h : ∀ x ∈ s, x.isWhitespace = false) :
    pyStrip s = s := by
  unfold pyStrip
  rw [dropWhile_eq_self_of h, dropWhile_eq_self_of, List.reverse_reverse]
  intro x hx
  exact h x (List.mem_reverse.mp hx)

/-! Helper lemmas about decimal printing and parsing. -/

theorem digitChar10_toNat {d : Nat} (h : d < 10) : (digitChar10 d).toNat = 48 + d := by
  interval_cases d <;> rfl

theorem digitChar10_isDigit {d : Nat} (h : d < 10) : (digitChar10 d).isDigit = true := by
  interval_cases d <;> rfl

theorem digitChar10_not_ws {d : Nat} (h : d < 10) : (digitChar10 d).isWhitespace = false := by
  interval_cases d <;> rfl

theorem digitChar10_ne_sep {d : Nat} (h : d < 10) : digitChar10 d ≠ '|' := by
  interval_cases d <;> decide

theorem natDigitsAux_eq_digits :
    ∀ fuel n : Nat, n ≤ fuel → natDigitsAux fuel n = Nat.digits 10 n := by
  intro fuel
  induction fuel with
  | zero =>
    intro n h
    have : n = 0 := Nat.le_zero.mp h
    subst this
    simp [natDigitsAux]
  | succ fuel ih =>
    intro n h
    by_cases hn : n = 0
    · subst hn
      simp [natDigitsAux]
    · have hdiv : n / 10 < n := Nat.div_lt_self (Nat.pos_of_ne_zero hn) (by norm_num)
      rw [natDigitsAux, if_neg hn,
        Nat.digits_def' (by norm_num : (1 : Nat) < 10) (Nat.pos_of_ne_zero hn),
        ih (n / 10) (by omega)]

theorem mem_natDigitsAux_lt {n d : Nat} (hd : d ∈ natDigitsAux n n) : d < 10 := by
  rw [natDigitsAux_eq_digits n n le_rfl] at hd
  exact Nat.digits_lt_base (by norm_num) hd

theorem foldl_ofDigits :
    ∀ (l : List Nat), (∀ d ∈ l, d < 10) → ∀ a : Nat,
      List.foldl (fun x c => 10 * x + (c.toNat - 48)) a (l.map digitChar10)
        = a * 10 ^ l.length + Nat.ofDigits 10 l.reverse := by
  intro l
  induction l with
  | nil =>
    intro _ a
    simp [Nat.ofDigits]
  | cons d l ih =>
    intro hl a
    have hd : d < 10 := hl d (List.mem_cons_self d l)
    have hl2 : ∀ x ∈ l, x < 10 := fun x hx => hl x (List.mem_cons_of_mem d hx)
    simp only [List.map_cons, List.foldl_cons]
    rw [digitChar10_toNat hd, show 48 + d - 48 = d from by omega, ih hl2 (10 * a + d)]
    rw [List.reverse_cons, Nat.ofDigits_append]
    simp only [List.length_reverse, List.length_cons, Nat.ofDigits_singleton, pow_succ]
    ring

theorem digitsVal_pyNatRepr (n : Nat) : digitsVal (pyNatRepr n) = n := by
  unfold pyNatRepr
  by_cases hn : n = 0
  · subst hn; rfl
  · rw [if_neg hn]
    unfold digitsVal
    rw [natDigitsAux_eq_digits n n le_rfl]
    have hlt : ∀ d ∈ (Nat.digits 10 n).reverse, d < 10 := fun d hd =>
      Nat.digits_lt_base (by norm_num) (List.mem_reverse.mp hd)
    rw [foldl_ofDigits _ hlt 0]
    simp [Nat.ofDigits_digits]

theorem pyNatRepr_digits (n : Nat) : ∀ c ∈ pyNatRepr n, c.isDigit = true := by
  intro c hc
  unfold pyNatRepr at hc
  by_cases hn : n = 0
  · rw [if_pos hn] at hc
    simp at hc
    subst hc
    rfl
  · rw [if_neg hn] at hc
    rcases List.mem_map.mp hc with ⟨d, hd, rfl⟩
    exact digitChar10_isDigit (mem_natDigitsAux_lt (List.mem_reverse.mp hd))

theorem pyNatRepr_ne_nil (n : Nat) : pyNatRepr n ≠ [] := by
  unfold pyNatRepr
  by_cases hn : n = 0
  · simp [hn]
  · rw [if_neg hn]
    simp only [ne_eq, List.map_eq_nil_iff, List.reverse_eq_nil_iff]
    rw [natDigitsAux_eq_digits n n le_rfl]
    exact Nat.digits_ne_nil_iff_ne_zero.mpr hn

theorem isDigits_pyNatRepr (n : Nat) : isDigits (pyNatRepr n) = true := by
  unfold isDigits
  rw [Bool.and_eq_true, Bool.not_eq_true', List.all_eq_true]
  constructor
  · rw [List.isEmpty_eq_false_iff_exists_mem]
    rcases hc : pyNatRepr n with _ | ⟨c, cs⟩
    · exact absurd hc (pyNatRepr_ne_nil n)
    · exact ⟨c, List.mem_cons_self c cs⟩
  · exact pyNatRepr_digits n

theorem isDigit_beq_false {c x : Char} (hx : x.isDigit = false) (h : c.isDigit = true) :
    (c == x) = false := by
  cases hbe : c == x with
  | false => rfl
  | true =>
    have : c = x := eq_of_beq hbe
    subst this
    rw [h] at hx
    cases hx

theorem pyNatRepr_not_ws (n : Nat) : ∀ c ∈ pyNatRepr n, c.isWhitespace = false := by
  intro c hc
  unfold pyNatRepr at hc
  by_cases hn : n = 0
  · rw [if_pos hn] at hc
    simp at hc
    subst hc
    rfl
  · rw [if_neg hn] at hc
    rcases List.mem_map.mp hc with ⟨d, hd, rfl⟩
    exact digitChar10_not_ws (mem_natDigitsAux_lt (List.mem_reverse.mp hd))

theorem sep_not_mem_pyNatRepr (n : Nat) : '|' ∉ pyNatRepr n := by
  intro hc
  unfold pyNatRepr at hc
  by_cases hn : n = 0
  · rw [if_pos hn] at hc
    simp at hc
  · rw [if_neg hn] at hc
    rcases List.mem_map.mp hc with ⟨d, hd, hdc⟩
    exact digitChar10_ne_sep (mem_natDigitsAux_lt (List.mem_reverse.mp hd)) hdc

theorem sep_not_mem_pyIntRepr (z : Int) : '|' ∉ pyIntRepr z := by
  unfold pyIntRepr
  by_cases hz : z < 0
  · rw [if_pos hz]
    intro hc
    rcases List.mem_cons.mp hc with h1 | h2
    · cases h1
    · exact sep_not_mem_pyNatRepr _ h2
  · rw [if_neg hz]
    exact sep_not_mem_pyNatRepr _

theorem pyStrip_pyIntRepr (z : Int) : pyStrip (pyIntRepr z) = pyIntRepr z := by
  apply pyStrip_eq_self
  intro x hx
  unfold pyIntRepr at hx
  by_cases hz : z < 0
  · rw [if_pos hz] at hx
    rcases List.mem_cons.mp hx with h1 | h2
    · subst h1; rfl
    · exact pyNatRepr_not_ws _ x h2
  · rw [if_neg hz] at hx
    exact pyNatRepr_not_ws _ x hx

theorem isDigit_ne {c x : Char} (hx : x.isDigit = false) (h : c.isDigit = true) :
    c ≠ x := by
  intro he
  subst he
  rw [h] at hx
  cases hx

theorem pyParseInt_pyIntRepr (z : Int) : pyParseInt (pyIntRepr z) = some z := by
  rw [pyParseInt, pyStrip_pyIntRepr]
  by_cases hz : z < 0
  · rw [show pyIntRepr z = '-' :: pyNatRepr z.natAbs from by rw [pyIntRepr, if_pos hz]]
    simp only [List.head?_cons, List.tail_cons, isDigits_pyNatRepr, digitsVal_pyNatRepr,
      if_true, reduceCtorEq, if_false, Option.some.injEq]
    omega
  · rw [show pyIntRepr z = pyNatRepr z.toNat from by rw [pyIntRepr, if_neg hz]]
    rcases hc : pyNatRepr z.toNat with _ | ⟨c, cs⟩
    · exact absurd hc (pyNatRepr_ne_nil _)
    · have hcd : c.isDigit = true := pyNatRepr_digits _ c (hc ▸ List.mem_cons_self c cs)
      have hd1 : c ≠ '-' := isDigit_ne (by rfl) hcd
      have hd2 : c ≠ '+' := isDigit_ne (by rfl) hcd
      have hdig : isDigits (c :: cs) = true := hc ▸ isDigits_pyNatRepr z.toNat
      have hval : digitsVal (c :: cs) = z.toNat := hc ▸ digitsVal_pyNatRepr z.toNat
      simp only [List.head?_cons, List.tail_cons, hdig, hval, if_true, reduceCtorEq,
        if_false, Option.some.injEq, hd1, hd2]
      omega

/-! Pagination lemmas. -/

theorem pages_pos (total : Nat) : 1 ≤ pages total := le_max_left 1 _

theorem pages_eq_ceil (total : Nat) : pages total = max 1 ⌈(total : ℚ) / 15⌉₊ := by
  unfold pages PAGE_SIZE
  congr 1
  by_cases h0 : total = 0
  · subst h0
    simp
  · have h15 : (0 : ℚ) < 15 := by norm_num
    have hq : total + 14 = 15 * ((total + 14) / 15) + (total + 14) % 15 :=
      (Nat.div_add_mod _ _).symm
    have hr : (total + 14) % 15 < 15 := Nat.mod_lt _ (by norm_num)
    set q := (total + 14) / 15 with hqdef
    symm
    rw [Nat.ceil_eq_iff (show q ≠ 0 by omega)]
    constructor
    · rw [lt_div_iff₀ h15]
      exact_mod_cast (show (q - 1) * 15 < total by omega)
    · rw [div_le_iff₀ h15]
      exact_mod_cast (show total ≤ q * 15 by omega)

theorem clampPage_bounds {tp : Nat} (htp : 1 ≤ tp) (page : Int) :
    0 ≤ clampPage page tp ∧ clampPage page tp ≤ (tp : Int) - 1 := by
  unfold clampPage
  constructor
  · apply le_min
    · exact le_max_right page 0
    · omega
  · exact min_le_right _ _

theorem clampPage_one (page : Int) : clampPage page 1 = 0 := by
  unfold clampPage
  omega

theorem edit_find_rendered {c : FindCache} {db : DB} {uid : Nat} {token : Str}
    {page : Int} {r : Rendered} (h : edit_find_model c db uid token page = .rendered r) :
    r.tp = pages r.total ∧ r.page = clampPage page r.tp ∧ r.offset = r.page * 15 := by
  unfold edit_find_model at h
  rcases hres : cache_resolve c uid token with _ | q
  · simp only [hres] at h
    cases h
  · simp only [hres] at h
    by_cases hq : q = []
    · rw [if_pos hq] at h
      cases h
    · rw [if_neg hq] at h
      cases h
      exact ⟨rfl, rfl, rfl⟩

/-! Decode of encoded payloads. -/

theorem decode_encode (a : Action) (h : sepOK a = true) :
    decodeData (encodeAction a) = .ok a := by
  cases a with
  | all p =>
    show cb_all ("ALL".data ++ '|' :: pyIntRepr p) = .ok (.all p)
    simp only [cb_all, splitFirst_append (show ('|' : Char) ∉ "ALL".data from by decide),
      pyParseInt_pyIntRepr]
  | letter l p =>
    have hl : '|' ∉ l := of_decide_eq_true h
    show cb_letter ("LET".data ++ '|' :: (l ++ '|' :: pyIntRepr p)) = .ok (.letter l p)
    have h2 : splitN '|' 2 ("LET".data ++ '|' :: (l ++ '|' :: pyIntRepr p))
        = ["LET".data, l, pyIntRepr p] := by
      rw [splitN_succ_append (show ('|' : Char) ∉ "LET".data from by decide),
        splitN_succ_append hl]
      rfl
    simp only [cb_letter, h2, pyParseInt_pyIntRepr]
  | find t p =>
    have ht : '|' ∉ t := of_decide_eq_true h
    show cb_find ("FIND".data ++ '|' :: (t ++ '|' :: pyIntRepr p)) = .ok (.find t p)
    have h2 : splitN '|' 2 ("FIND".data ++ '|' :: (t ++ '|' :: pyIntRepr p))
        = ["FIND".data, t, pyIntRepr p] := by
      rw [splitN_succ_append (show ('|' : Char) ∉ "FIND".data from by decide),
        splitN_succ_append ht]
      rfl
    simp only [cb_find, h2, pyParseInt_pyIntRepr]
  | quizShow i =>
    show cb_quiz ("QUIZ".data ++ '|' :: ("SHOW".data ++ '|' :: pyIntRepr i))
        = .ok (.quizShow i)
    have h2 : splitN '|' 2 ("QUIZ".data ++ '|' :: ("SHOW".data ++ '|' :: pyIntRepr i))
        = ["QUIZ".data, "SHOW".data, pyIntRepr i] := by
      rw [splitN_succ_append (show ('|' : Char) ∉ "QUIZ".data from by decide),
        splitN_succ_append (show ('|' : Char) ∉ "SHOW".data from by decide)]
      rfl
    simp only [cb_quiz, h2, pyParseInt_pyIntRepr]
    rfl
  | quizNext => decide
  | quizDel i =>
    show cb_quiz ("QUIZ".data ++ '|' :: ("DEL".data ++ '|' :: pyIntRepr i))
        = .ok (.quizDel i)
    have h2 : splitN '|' 2 ("QUIZ".data ++ '|' :: ("DEL".data ++ '|' :: pyIntRepr i))
        = ["QUIZ".data, "DEL".data, pyIntRepr i] := by
      rw [splitN_succ_append (show ('|' : Char) ∉ "QUIZ".data from by decide),
        splitN_succ_append (show ('|' : Char) ∉ "DEL".data from by decide)]
      rfl
    simp only [cb_quiz, h2, pyParseInt_pyIntRepr]
    rfl
  | editPick i =>
    show cb_edit ("EDIT".data ++ '|' :: ("PICK".data ++ '|' :: pyIntRepr i))
        = .ok (.editPick i)
    have h2 : splitAll '|' ("EDIT".data ++ '|' :: ("PICK".data ++ '|' :: pyIntRepr i))
        = ["EDIT".data, "PICK".data, pyIntRepr i] := by
      rw [splitAll_append (show ('|' : Char) ∉ "EDIT".data from by decide),
        splitAll_append (show ('|' : Char) ∉ "PICK".data from by decide),
        splitAll_not_mem (sep_not_mem_pyIntRepr i)]
    simp only [cb_edit, h2, pyParseInt_pyIntRepr]
    rfl
  | editField f i =>
    have hf : '|' ∉ f := of_decide_eq_true h
    show cb_edit ("EDIT".data ++ '|' :: ("FIELD".data ++ '|' :: (f ++ '|' :: pyIntRepr i)))
        = .ok (.editField f i)
    have h2 : splitAll '|'
        ("EDIT".data ++ '|' :: ("FIELD".data ++ '|' :: (f ++ '|' :: pyIntRepr i)))
        = ["EDIT".data, "FIELD".data, f, pyIntRepr i] := by
      rw [splitAll_append (show ('|' : Char) ∉ "EDIT".data from by decide),
        splitAll_append (show ('|' : Char) ∉ "FIELD".data from by decide),
        splitAll_append hf, splitAll_not_mem (sep_not_mem_pyIntRepr i)]
    simp only [cb_edit, h2, pyParseInt_pyIntRepr]
    rfl
  | menu a =>
    show cb_menu ("MENU".data ++ '|' :: a) = .ok (.menu a)
    simp only [cb_menu, splitFirst_append (show ('|' : Char) ∉ "MENU".data from by decide)]
  | cancel => decide
  | nop => decide

/-! Query-token cache lemmas. -/

theorem dictGet_set_self {α β : Type} [BEq α] [LawfulBEq α]
    (d : List (α × β)) (k : α) (v : β) : dictGet (dictSet d k v) k = some v := by
  induction d with
  | nil => simp [dictSet, dictGet]
  | cons kv d ih =>
    rcases kv with ⟨k1, v1⟩
    by_cases h : (k1 == k) = true
    · simp [dictSet, h, dictGet]
    · simp [dictSet, h, dictGet, ih]

theorem dictGet_set_ne {α β : Type} [BEq α] [LawfulBEq α]
    (d : List (α × β)) (k k0 : α) (v : β) (h : k0 ≠ k) :
    dictGet (dictSet d k v) k0 = dictGet d k0 := by
  induction d with
  | nil =>
    simp [dictSet, dictGet]
    intro he
    exact absurd he.symm h
  | cons kv d ih =>
    rcases kv with ⟨k1, v1⟩
    by_cases h1 : (k1 == k) = true
    · have hk1 : k1 = k := eq_of_beq h1
      subst hk1
      have h2 : (k1 == k0) = false := beq_eq_false_iff_ne.mpr (fun he => h (he ▸ rfl))
      simp [dictSet, h1, dictGet, h2]
    · simp [dictSet, h1, dictGet, ih]

theorem cache_resolve_issue (c : FindCache) (uid uid0 : Nat) (token q t0 : Str) :
    cache_resolve (cache_issue c uid token q) uid0 t0 =
      if uid = uid0 ∧ token = t0 then some q else cache_resolve c uid0 t0 := by
  unfold cache_resolve cache_issue
  by_cases hu : uid = uid0
  · subst hu
    rw [dictGet_set_self]
    by_cases ht : token = t0
    · subst ht
      rw [if_pos ⟨rfl, rfl⟩]
      simp [dictGet_set_self]
    · rw [if_neg (fun hc => ht hc.2)]
      simp [dictGet_set_ne _ _ _ _ (fun he => ht he.symm)]
  · rw [dictGet_set_ne _ _ _ _ (fun he => hu he.symm), if_neg (fun hc => hu hc.1)]

theorem cache_resolve_applyIssues_none :
    ∀ (ops : List (Nat × Str × Str)) (c : FindCache) (x : Nat) (t : Str),
      cache_resolve c x t = none → (∀ op ∈ ops, op.1 = x → op.2.1 ≠ t) →
      cache_resolve (applyIssues c ops) x t = none := by
  intro ops
  induction ops with
  | nil => intro c x t hc _; exact hc
  | cons op ops ih =>
    rcases op with ⟨u, tk, q⟩
    intro c x t hc hops
    have hbase : cache_resolve (cache_issue c u tk q) x t = none := by
      rw [cache_resolve_issue]
      rw [if_neg]
      · exact hc
      · rintro ⟨rfl, rfl⟩
        exact hops (u, tk, q) (List.mem_cons_self _ _) rfl rfl
    exact ih _ x t hbase (fun op hop => hops op (List.mem_cons_of_mem _ hop))

/-! Record-store lemmas. -/

theorem keyCond_false {x : Entry} {uid : Nat} {k : Str}
    (h : ¬(x.user_id = uid ∧ x.en_norm = k)) :
    (x.user_id == uid && x.en_norm == k) = false := by
  cases hb : (x.user_id == uid && x.en_norm == k) with
  | false => rfl
  | true =>
    rw [Bool.and_eq_true, beq_iff_eq, beq_iff_eq] at hb
    exact absurd hb h

theorem hasKey_eq_false {db : DB} {uid : Nat} {k : Str}
    (h : ∀ e ∈ db.entries, ¬(e.user_id = uid ∧ e.en_norm = k)) :
    hasKey db uid k = false := by
  unfold hasKey
  rw [List.any_eq_false]
  intro e he
  rw [keyCond_false (h e he)]
  exact Bool.false_ne_true

theorem hasKey_eq_true {db : DB} {uid : Nat} {k : Str} {e : Entry}
    (he : e ∈ db.entries) (h1 : e.user_id = uid) (h2 : e.en_norm = k) :
    hasKey db uid k = true := by
  unfold hasKey
  rw [List.any_eq_true]
  exact ⟨e, he, by simp [h1, h2]⟩

theorem map_congr_mem {α β : Type} {l : List α} {f g : α → β}
    (h : ∀ x ∈ l, f x = g x) : l.map f = l.map g := by
  induction l with
  | nil => rfl
  | cons a l ih =>
    simp only [List.map_cons, h a (List.mem_cons_self a l)]
    rw [ih (fun x hx => h x (List.mem_cons_of_mem a hx))]

theorem map_id_of {α : Type} {l : List α} {f : α → α} (h : ∀ x ∈ l, f x = x) :
    l.map f = l := by
  rw [map_congr_mem (g := id) h, List.map_id]

theorem filter_length_ne_zero {l : List Entry} {p : Entry → Bool} {e : Entry}
    (he : e ∈ l) (hp : p e = true) : (l.filter p).length ≠ 0 := by
  have hmem : e ∈ l.filter p := List.mem_filter.mpr ⟨he, hp⟩
  intro h0
  rw [List.length_eq_zero] at h0
  rw [h0] at hmem
  cases hmem

theorem upsert_fresh {db : DB} {uid : Nat} {en ru : Str} {ex tg : Option Str} {now : Str}
    (h : hasKey db uid (pyLower (pyStrip en)) = false) :
    upsert_entry db uid en ru ex tg now =
      { entries := db.entries ++
          [{ id := db.nextId, user_id := uid, en := pyStrip en,
             en_norm := pyLower (pyStrip en), ru := pyStrip ru,
             ru_norm := pyLower (pyStrip ru), ex := ex, tags := tg, created_at := now }],
        nextId := db.nextId + 1 } := by
  simp [upsert_entry, h]

theorem upsert_hit {db : DB} {uid : Nat} {en ru : Str} {ex tg : Option Str} {now : Str}
    (h : hasKey db uid (pyLower (pyStrip en)) = true) :
    upsert_entry db uid en ru ex tg now =
      { db with entries := db.entries.map (fun e =>
          if e.user_id == uid && e.en_norm == pyLower (pyStrip en) then
            { e with en := pyStrip en, ru := pyStrip ru,
                     ru_norm := pyLower (pyStrip ru), ex := ex, tags := tg }
          else e) } := by
  simp [upsert_entry, h]

theorem filter_eq_nil_of {l : List Entry} {p : Entry → Bool}
    (h : ∀ x ∈ l, p x = false) : l.filter p = [] := by
  induction l with
  | nil => rfl
  | cons a l ih =>
    rw [List.filter_cons, h a (List.mem_cons_self a l)]
    exact ih (fun x hx => h x (List.mem_cons_of_mem a hx))

theorem upsert_entry_append_hit {l : List Entry} {nid uid : Nat} {en ru : Str}
    {ex tg : Option Str} {now : Str} {e1 : Entry}
    (h1 : e1.user_id = uid) (h2 : e1.en_norm = pyLower (pyStrip en))
    (hothers : ∀ e ∈ l, ¬(e.user_id = uid ∧ e.en_norm = pyLower (pyStrip en))) :
    upsert_entry ⟨l ++ [e1], nid⟩ uid en ru ex tg now =
      ⟨l ++ [{ e1 with en := pyStrip en, ru := pyStrip ru, ru_norm := pyLower (pyStrip ru), ex := ex, tags := tg }], nid⟩ := by
  have hk : hasKey ⟨l ++ [e1], nid⟩ uid (pyLower (pyStrip en)) = true :=
    hasKey_eq_true (by simp) h1 h2
  rw [upsert_hit hk]
  congr 1
  show (l ++ [e1]).map (fun e =>
      if e.user_id == uid && e.en_norm == pyLower (pyStrip en) then
        { e with en := pyStrip en, ru := pyStrip ru,
                 ru_norm := pyLower (pyStrip ru), ex := ex, tags := tg }
      else e) = _
  rw [List.map_append, map_id_of (fun x hx => by simp [keyCond_false (hothers x hx)])]
  simp [h1, h2]

theorem update_entry_en_error {db : DB} {uid eid : Nat} {v : Str}
    (hn : (db.entries.filter (fun e => e.user_id == uid && e.id == eid)).length ≠ 0)
    (hany : db.entries.any (fun e => e.user_id == uid && e.id != eid &&
        e.en_norm == pyLower (pyStrip v)) = true) :
    update_entry db uid eid (some v) none none none = .error () := by
  simp [update_entry, hn, hany]

theorem update_entry_en_ok {db : DB} {uid eid : Nat} {v : Str}
    (hany : db.entries.any (fun e => e.user_id == uid && e.id != eid &&
        e.en_norm == pyLower (pyStrip v)) = false) :
    update_entry db uid eid (some v) none none none
      = .ok ({ db with entries := db.entries.map (fun e =>
            if e.user_id == uid && e.id == eid then
              { e with en := pyStrip v, en_norm := pyLower (pyStrip v) } else e) },
          (db.entries.filter (fun e => e.user_id == uid && e.id == eid)).length) := by
  simp [update_entry, applyUpdate, hany]

/-! The claims. -/

/-- C1: for every total record count, the page count computed for a view
is max(1, ceil(total/15)), and in every mode (all, letter, search) the
requested page, including negative and out-of-range values, is clamped
into the interval from 0 to pages-1 before the offset is computed; an
empty set yields page 0 of 1 page. -/
theorem c1_pages_and_clamp (db : DB) (uid : Nat) (page : Int) (letter : Str)
    (c : FindCache) (token q : Str) :
    (∀ total : Nat, pages total = max 1 ⌈(total : ℚ) / 15⌉₊)
    ∧ ((edit_all_model db uid page).tp = pages (edit_all_model db uid page).total
       ∧ 0 ≤ (edit_all_model db uid page).page
       ∧ (edit_all_model db uid page).page ≤ ((edit_all_model db uid page).tp : Int) - 1
       ∧ (edit_all_model db uid page).offset = (edit_all_model db uid page).page * 15)
    ∧ ((edit_letter_model db uid letter page).tp
         = pages (edit_letter_model db uid letter page).total
       ∧ 0 ≤ (edit_letter_model db uid letter page).page
       ∧ (edit_letter_model db uid letter page).page
           ≤ ((edit_letter_model db uid letter page).tp : Int) - 1
       ∧ (edit_letter_model db uid letter page).offset
           = (edit_letter_model db uid letter page).page * 15)
    ∧ ((send_find_model c db uid q token page).2.tp
         = pages (send_find_model c db uid q token page).2.total
       ∧ 0 ≤ (send_find_model c db uid q token page).2.page
       ∧ (send_find_model c db uid q token page).2.page
           ≤ ((send_find_model c db uid q token page).2.tp : Int) - 1)
    ∧ (match edit_find_model c db uid token page with
       | .expired => True
       | .rendered r => r.tp = pages r.total ∧ 0 ≤ r.page ∧ r.page ≤ (r.tp : Int) - 1
           ∧ r.offset = r.page * 15)
    ∧ (pages 0 = 1 ∧ clampPage page (pages 0) = 0) := by
  refine ⟨pages_eq_ceil, ⟨rfl, ?_, ?_, rfl⟩, ⟨rfl, ?_, ?_, rfl⟩, ⟨rfl, ?_, ?_⟩, ?_, rfl, ?_⟩
  · exact (clampPage_bounds (pages_pos _) page).1
  · exact (clampPage_bounds (pages_pos _) page).2
  · exact (clampPage_bounds (pages_pos _) page).1
  · exact (clampPage_bounds (pages_pos _) page).2
  · exact (clampPage_bounds (pages_pos _) page).1
  · exact (clampPage_bounds (pages_pos _) page).2
  · rcases hres : edit_find_model c db uid token page with _ | r
    · trivial
    · obtain ⟨ht, hp, ho⟩ := edit_find_rendered hres
      have htp : 1 ≤ r.tp := by
        rw [ht]
        exact pages_pos _
      refine ⟨ht, ?_, ?_, ho⟩
      · rw [hp]
        exact (clampPage_bounds htp page).1
      · rw [hp]
        exact (clampPage_bounds htp page).2
  · exact clampPage_one page

/-- C2: counter-evidence for the malformed-payload claim. The payload
ALL followed by the separator and a non-decimal page is routed to cb_all
and raises ValueError inside int(); the payload QUIZ with only one field
after the action raises ValueError in tuple unpacking inside cb_quiz.
Neither handler checks the parameter count or guards int(), so the
decoding fault escapes the handler instead of a no-op with a transient
notice. -/
theorem c2_malformed_payload_raises :
    decodeData "ALL|oops".data = .fault ∧ decodeData "QUIZ|NEXT".data = .fault := by
  constructor <;> decide

/-- C3: for every defined callback action whose letter, token and field
name parameters avoid the separator character, decoding the encoded
payload through the dispatcher and its handler returns exactly the
original action and parameters. -/
theorem c3_roundtrip (a : Action) (h : sepOK a = true) :
    decodeData (encodeAction a) = .ok a :=
  decode_encode a h

/-- C3 witness at a concrete action. -/
theorem c3_roundtrip_witness :
    sepOK (.find "ab12".data 2) = true
    ∧ decodeData (encodeAction (.find "ab12".data 2)) = .ok (.find "ab12".data 2) :=
  ⟨by decide, c3_roundtrip (.find "ab12".data 2) (by decide)⟩

/-- C4: when the normalized primaries of two upserts coincide and the key
is fresh for the owner, the two upserts leave exactly one record for the
key, the owner count rises by exactly 1, and the surviving record holds
the second upsert display primary, secondary, example and tag values. -/
theorem c4_upsert_same_key_single_record (db : DB) (uid : Nat)
    (en1 ru1 en2 ru2 : Str) (ex1 tg1 ex2 tg2 : Option Str) (now1 now2 : Str)
    (hkey : pyLower (pyStrip en1) = pyLower (pyStrip en2))
    (hfresh : ∀ e ∈ db.entries, ¬(e.user_id = uid ∧ e.en_norm = pyLower (pyStrip en2))) :
    count_all (upsert_entry (upsert_entry db uid en1 ru1 ex1 tg1 now1)
        uid en2 ru2 ex2 tg2 now2) uid = count_all db uid + 1
    ∧ ∃ r : Entry,
        ((upsert_entry (upsert_entry db uid en1 ru1 ex1 tg1 now1)
            uid en2 ru2 ex2 tg2 now2).entries.filter
          (fun e => e.user_id == uid && e.en_norm == pyLower (pyStrip en2))) = [r]
        ∧ r.en = pyStrip en2 ∧ r.ru = pyStrip ru2 ∧ r.ex = ex2 ∧ r.tags = tg2 := by
  have hf1 : hasKey db uid (pyLower (pyStrip en1)) = false := by
    rw [hkey]
    exact hasKey_eq_false hfresh
  rw [upsert_fresh hf1]
  rw [upsert_entry_append_hit rfl hkey hfresh]
  constructor
  · simp [count_all, List.filter_append]
  · refine ⟨{ id := db.nextId, user_id := uid, en := pyStrip en2, en_norm := pyLower (pyStrip en1), ru := pyStrip ru2, ru_norm := pyLower (pyStrip ru2), ex := ex2, tags := tg2, created_at := now1 }, ?_, rfl, rfl, rfl, rfl⟩
    show List.filter (fun e => e.user_id == uid && e.en_norm == pyLower (pyStrip en2))
        (db.entries ++ [{ id := db.nextId, user_id := uid, en := pyStrip en2, en_norm := pyLower (pyStrip en1), ru := pyStrip ru2, ru_norm := pyLower (pyStrip ru2), ex := ex2, tags := tg2, created_at := now1 }]) = _
    rw [List.filter_append, filter_eq_nil_of (fun x hx => keyCond_false (hfresh x hx))]
    simp [hkey]

/-- C5: a search-page render whose token misses the query-token cache
returns the search-expired signal for every store state, so no store
query can influence it, and stops. -/
theorem c5_search_miss_expired (c : FindCache) (db : DB) (uid : Nat) (token : Str)
    (page : Int) (hmiss : cache_resolve c uid token = none) :
    edit_find_model c db uid token page = .expired
    ∧ ∀ db2 : DB, edit_find_model c db2 uid token page
        = edit_find_model c db uid token page := by
  have main : ∀ d : DB, edit_find_model c d uid token page = .expired := by
    intro d
    unfold edit_find_model
    rw [hmiss]
  exact ⟨main db, fun db2 => (main db2).trans (main db).symm⟩

/-- C5 witness: the empty cache misses, and the render reports expired on
a concrete store. -/
theorem c5_search_miss_expired_witness :
    cache_resolve [] 1 "ab".data = none
    ∧ (edit_find_model [] (⟨[], 1⟩ : DB) 1 "ab".data 2 = .expired
       ∧ ∀ db2 : DB, edit_find_model [] db2 1 "ab".data 2
           = edit_find_model [] (⟨[], 1⟩ : DB) 1 "ab".data 2) :=
  ⟨rfl, c5_search_miss_expired [] (⟨[], 1⟩ : DB) 1 "ab".data 2 rfl⟩

/-- C6: the token cache is keyed per owner: issuing a token for one owner
leaves every other owner resolution unchanged, and a token that no
operation ever issued to owner x resolves to a miss for x no matter what
was issued to other owners. -/
theorem c6_token_per_owner (c : FindCache) (x y : Nat) (t tk q : Str)
    (ops : List (Nat × Str × Str)) (hxy : x ≠ y)
    (hops : ∀ op ∈ ops, op.1 = x → op.2.1 ≠ t) :
    cache_resolve (cache_issue c y tk q) x t = cache_resolve c x t
    ∧ cache_resolve (applyIssues [] ops) x t = none := by
  constructor
  · rw [cache_resolve_issue]
    rw [if_neg (fun hc => hxy hc.1.symm)]
  · exact cache_resolve_applyIssues_none ops [] x t rfl hops

/-- C6 witness: a token issued only to owner 2 does not resolve for
owner 1. -/
theorem c6_token_per_owner_witness :
    (1 : Nat) ≠ 2
    ∧ (∀ op ∈ [((2 : Nat), "aa".data, "cat".data)], op.1 = 1 → op.2.1 ≠ "aa".data)
    ∧ (cache_resolve (cache_issue [] 2 "bb".data "dog".data) 1 "aa".data
        = cache_resolve [] 1 "aa".data
       ∧ cache_resolve (applyIssues [] [((2 : Nat), "aa".data, "cat".data)]) 1 "aa".data
         = none) :=
  ⟨by decide, by decide,
    c6_token_per_owner [] 1 2 "aa".data "bb".data "dog".data
      [((2 : Nat), "aa".data, "cat".data)] (by decide) (by decide)⟩

/-- C7: in the edit-field-value flow for field example or tags, the text
message consisting of the dash sentinel clears that field to absent, not
the literal dash, and changes nothing else: the resulting store is the
old one with exactly that one field of the addressed record cleared. -/
theorem c7_dash_clears_example_tags (db : DB) (uid eid : Nat) (e0 : Entry)
    (he0 : e0 ∈ db.entries) (h1 : e0.user_id = uid) (h2 : e0.id = eid) (heid : eid ≠ 0) :
    on_edit_value db uid (some (eid, "example".data)) "-".data
      = (.updated, { db with entries := db.entries.map (fun e => if e.user_id == uid && e.id == eid then { e with ex := none } else e) })
    ∧ on_edit_value db uid (some (eid, "tags".data)) "-".data
      = (.updated, { db with entries := db.entries.map (fun e => if e.user_id == uid && e.id == eid then { e with tags := none } else e) }) := by
  have hn : (db.entries.filter (fun e => e.user_id == uid && e.id == eid)).length ≠ 0 :=
    filter_length_ne_zero he0 (by simp [h1, h2])
  constructor
  · rw [show on_edit_value db uid (some (eid, "example".data)) "-".data
        = (if eid = 0 ∨ ("example".data : Str) = [] then ((.noContext, db) : EditOutcome × DB)
           else if (db.entries.filter (fun e => e.user_id == uid && e.id == eid)).length = 0
           then (.notUpdated, { db with entries := db.entries.map (fun e => if e.user_id == uid && e.id == eid then { e with ex := none } else e) })
           else (.updated, { db with entries := db.entries.map (fun e => if e.user_id == uid && e.id == eid then { e with ex := none } else e) }))
      from rfl]
    rw [if_neg (not_or.mpr ⟨heid, by decide⟩), if_neg hn]
  · rw [show on_edit_value db uid (some (eid, "tags".data)) "-".data
        = (if eid = 0 ∨ ("tags".data : Str) = [] then ((.noContext, db) : EditOutcome × DB)
           else if (db.entries.filter (fun e => e.user_id == uid && e.id == eid)).length = 0
           then (.notUpdated, { db with entries := db.entries.map (fun e => if e.user_id == uid && e.id == eid then { e with tags := none } else e) })
           else (.updated, { db with entries := db.entries.map (fun e => if e.user_id == uid && e.id == eid then { e with tags := none } else e) }))
      from rfl]
    rw [if_neg (not_or.mpr ⟨heid, by decide⟩), if_neg hn]

/-- C7 witness: clearing example and tags of a concrete record with the
dash sentinel. -/
theorem c7_dash_clears_example_tags_witness :
    (5 : Nat) ≠ 0
    ∧ (on_edit_value (⟨[⟨5, 7, "cat".data, "cat".data, "k".data, "k".data, some "x".data, some "t".data, "d".data⟩], 6⟩ : DB) 7 (some (5, "example".data)) "-".data
        = (.updated, (⟨[⟨5, 7, "cat".data, "cat".data, "k".data, "k".data, none, some "t".data, "d".data⟩], 6⟩ : DB))
       ∧ on_edit_value (⟨[⟨5, 7, "cat".data, "cat".data, "k".data, "k".data, some "x".data, some "t".data, "d".data⟩], 6⟩ : DB) 7 (some (5, "tags".data)) "-".data
        = (.updated, (⟨[⟨5, 7, "cat".data, "cat".data, "k".data, "k".data, some "x".data, none, "d".data⟩], 6⟩ : DB))) :=
  ⟨by decide, c7_dash_clears_example_tags
    (⟨[⟨5, 7, "cat".data, "cat".data, "k".data, "k".data, some "x".data, some "t".data, "d".data⟩], 6⟩ : DB)
    7 5 (⟨5, 7, "cat".data, "cat".data, "k".data, "k".data, some "x".data, some "t".data, "d".data⟩ : Entry)
    (by decide) rfl rfl (by decide)⟩

/-- C8: editing the primary field to a value whose normalized form
collides with another existing record of the same owner reports the
dedicated already-exists outcome and leaves the store, in particular
record R, completely unchanged. -/
theorem c8_primary_conflict_preserves (db : DB) (uid eid : Nat) (text : Str) (e0 e1 : Entry)
    (he0 : e0 ∈ db.entries) (h1 : e0.user_id = uid) (h2 : e0.id = eid) (heid : eid ≠ 0)
    (hc1 : e1 ∈ db.entries) (hc2 : e1.user_id = uid) (hc3 : e1.id ≠ eid)
    (hc4 : e1.en_norm = pyLower (pyStrip (if pyStrip text = "-".data then [] else pyStrip text))) :
    on_edit_value db uid (some (eid, "en".data)) text = (.conflictEn, db) := by
  have hn : (db.entries.filter (fun e => e.user_id == uid && e.id == eid)).length ≠ 0 :=
    filter_length_ne_zero he0 (by simp [h1, h2])
  have hany : db.entries.any (fun e => e.user_id == uid && e.id != eid &&
      e.en_norm == pyLower (pyStrip (if pyStrip text = "-".data then [] else pyStrip text))) = true := by
    rw [List.any_eq_true]
    refine ⟨e1, hc1, ?_⟩
    simp [hc2, hc3, hc4]
  rw [show on_edit_value db uid (some (eid, "en".data)) text
      = (if eid = 0 ∨ ("en".data : Str) = [] then ((.noContext, db) : EditOutcome × DB)
         else (match update_entry db uid eid (some (if pyStrip text = "-".data then [] else pyStrip text)) none none none with
           | .error _ => (.conflictEn, db)
           | .ok (db2, n) => if n = 0 then (.notUpdated, db2) else (.updated, db2)))
      from rfl, if_neg (not_or.mpr ⟨heid, by decide⟩), update_entry_en_error hn hany]

/-- C8 witness: editing record 5 primary to a value colliding with
record 6 of the same owner reports the conflict and keeps the store. -/
theorem c8_primary_conflict_preserves_witness :
    (5 : Nat) ≠ 0
    ∧ on_edit_value (⟨[⟨5, 7, "cat".data, "cat".data, "k".data, "k".data, none, none, "d".data⟩, ⟨6, 7, "dog".data, "dog".data, "k".data, "k".data, none, none, "d".data⟩], 7⟩ : DB) 7 (some (5, "en".data)) "Dog".data
      = (.conflictEn, (⟨[⟨5, 7, "cat".data, "cat".data, "k".data, "k".data, none, none, "d".data⟩, ⟨6, 7, "dog".data, "dog".data, "k".data, "k".data, none, none, "d".data⟩], 7⟩ : DB)) :=
  ⟨by decide, c8_primary_conflict_preserves
    (⟨[⟨5, 7, "cat".data, "cat".data, "k".data, "k".data, none, none, "d".data⟩, ⟨6, 7, "dog".data, "dog".data, "k".data, "k".data, none, none, "d".data⟩], 7⟩ : DB)
    7 5 "Dog".data
    (⟨5, 7, "cat".data, "cat".data, "k".data, "k".data, none, none, "d".data⟩ : Entry)
    (⟨6, 7, "dog".data, "dog".data, "k".data, "k".data, none, none, "d".data⟩ : Entry)
    (by decide) rfl rfl (by decide) (by decide) rfl (by decide) (by decide)⟩

/-- C9: the dash sentinel is applied before the field name is inspected,
so editing the primary (en) or secondary (ru) field with the dash text
stores the empty string with empty normalized form rather than rejecting
the input or storing a literal dash (for en, provided no other record of
the owner already has the empty key, which would be a uniqueness
conflict instead). -/
theorem c9_dash_empties_primary_secondary (db : DB) (uid eid : Nat) (e0 : Entry)
    (he0 : e0 ∈ db.entries) (h1 : e0.user_id = uid) (h2 : e0.id = eid) (heid : eid ≠ 0)
    (hnoempty : ∀ e ∈ db.entries, ¬(e.user_id = uid ∧ e.id ≠ eid ∧ e.en_norm = [])) :
    on_edit_value db uid (some (eid, "en".data)) "-".data
      = (.updated, { db with entries := db.entries.map (fun e => if e.user_id == uid && e.id == eid then { e with en := [], en_norm := [] } else e) })
    ∧ on_edit_value db uid (some (eid, "ru".data)) "-".data
      = (.updated, { db with entries := db.entries.map (fun e => if e.user_id == uid && e.id == eid then { e with ru := [], ru_norm := [] } else e) }) := by
  have hn : (db.entries.filter (fun e => e.user_id == uid && e.id == eid)).length ≠ 0 :=
    filter_length_ne_zero he0 (by simp [h1, h2])
  constructor
  · have hany : db.entries.any (fun e => e.user_id == uid && e.id != eid &&
        e.en_norm == pyLower (pyStrip ([] : Str))) = false := by
      rw [List.any_eq_false]
      intro e he hct
      simp only [Bool.and_eq_true, beq_iff_eq, bne_iff_ne, ne_eq] at hct
      exact hnoempty e he ⟨hct.1.1, hct.1.2, hct.2⟩
    rw [show on_edit_value db uid (some (eid, "en".data)) "-".data
        = (if eid = 0 ∨ ("en".data : Str) = [] then ((.noContext, db) : EditOutcome × DB)
           else (match update_entry db uid eid (some []) none none none with
             | .error _ => (.conflictEn, db)
             | .ok (db2, n) => if n = 0 then (.notUpdated, db2) else (.updated, db2)))
        from rfl, if_neg (not_or.mpr ⟨heid, by decide⟩), update_entry_en_ok hany]
    show (if (db.entries.filter (fun e => e.user_id == uid && e.id == eid)).length = 0
          then ((.notUpdated, { db with entries := db.entries.map (fun e => if e.user_id == uid && e.id == eid then { e with en := [], en_norm := [] } else e) }) : EditOutcome × DB)
          else (.updated, { db with entries := db.entries.map (fun e => if e.user_id == uid && e.id == eid then { e with en := [], en_norm := [] } else e) })) = _
    rw [if_neg hn]
  · rw [show on_edit_value db uid (some (eid, "ru".data)) "-".data
        = (if eid = 0 ∨ ("ru".data : Str) = [] then ((.noContext, db) : EditOutcome × DB)
           else if (db.entries.filter (fun e => e.user_id == uid && e.id == eid)).length = 0
           then (.notUpdated, { db with entries := db.entries.map (fun e => if e.user_id == uid && e.id == eid then { e with ru := [], ru_norm := [] } else e) })
           else (.updated, { db with entries := db.entries.map (fun e => if e.user_id == uid && e.id == eid then { e with ru := [], ru_norm := [] } else e) }))
      from rfl]
    rw [if_neg (not_or.mpr ⟨heid, by decide⟩), if_neg hn]

/-- C9 witness: the dash sentinel empties the primary and the secondary
of a concrete record. -/
theorem c9_dash_empties_primary_secondary_witness :
    (5 : Nat) ≠ 0
    ∧ (on_edit_value (⟨[⟨5, 7, "cat".data, "cat".data, "k".data, "k".data, none, none, "d".data⟩], 6⟩ : DB) 7 (some (5, "en".data)) "-".data
        = (.updated, (⟨[⟨5, 7, [], [], "k".data, "k".data, none, none, "d".data⟩], 6⟩ : DB))
       ∧ on_edit_value (⟨[⟨5, 7, "cat".data, "cat".data, "k".data, "k".data, none, none, "d".data⟩], 6⟩ : DB) 7 (some (5, "ru".data)) "-".data
        = (.updated, (⟨[⟨5, 7, "cat".data, "cat".data, [], [], none, none, "d".data⟩], 6⟩ : DB))) :=
  ⟨by decide, c9_dash_empties_primary_secondary
    (⟨[⟨5, 7, "cat".data, "cat".data, "k".data, "k".data, none, none, "d".data⟩], 6⟩ : DB)
    7 5 (⟨5, 7, "cat".data, "cat".data, "k".data, "k".data, none, none, "d".data⟩ : Entry)
    (by decide) rfl rfl (by decide) (by decide)⟩

/-- C10: an upsert that hits an existing record keeps every record id,
creation timestamp, owner and normalized key unchanged (in particular
the AUTOINCREMENT counter does not move), while the records carrying the
key receive the new display primary, secondary, normalized secondary,
example and tag values. -/
theorem c10_upsert_conflict_frame (db : DB) (uid : Nat) (en ru : Str)
    (ex tg : Option Str) (now : Str) (e0 : Entry) (he0 : e0 ∈ db.entries)
    (h1 : e0.user_id = uid) (h2 : e0.en_norm = pyLower (pyStrip en)) :
    (upsert_entry db uid en ru ex tg now).nextId = db.nextId
    ∧ (upsert_entry db uid en ru ex tg now).entries.map
        (fun e => (e.id, e.created_at, e.user_id, e.en_norm))
      = db.entries.map (fun e => (e.id, e.created_at, e.user_id, e.en_norm))
    ∧ ∀ e ∈ (upsert_entry db uid en ru ex tg now).entries,
        e.user_id = uid → e.en_norm = pyLower (pyStrip en) →
        e.en = pyStrip en ∧ e.ru = pyStrip ru ∧ e.ru_norm = pyLower (pyStrip ru)
        ∧ e.ex = ex ∧ e.tags = tg := by
  have hk : hasKey db uid (pyLower (pyStrip en)) = true := hasKey_eq_true he0 h1 h2
  rw [upsert_hit hk]
  refine ⟨rfl, ?_, ?_⟩
  · rw [List.map_map]
    apply map_congr_mem
    intro x hx
    by_cases hc : (x.user_id == uid && x.en_norm == pyLower (pyStrip en)) = true
    · simp [Function.comp, hc]
    · rw [Bool.not_eq_true] at hc
      simp [Function.comp, hc]
  · intro e he hu hn
    rcases List.mem_map.mp he with ⟨x, hx, rfl⟩
    by_cases hc : (x.user_id == uid && x.en_norm == pyLower (pyStrip en)) = true
    · simp [hc]
    · rw [Bool.not_eq_true] at hc
      simp only [hc, Bool.false_eq_true, if_false] at hu hn
      exact absurd (show (x.user_id == uid && x.en_norm == pyLower (pyStrip en)) = true
        from by simp [hu, hn]) (by simp [hc])

/-- C10 witness: re-upserting the key of a concrete record keeps its id
and created_at. -/
theorem c10_upsert_conflict_frame_witness :
    ((⟨5, 7, "cat".data, "cat".data, "k".data, "k".data, none, none, "d".data⟩ : Entry).en_norm
        = pyLower (pyStrip "CAT".data))
    ∧ ((upsert_entry (⟨[⟨5, 7, "cat".data, "cat".data, "k".data, "k".data, none, none, "d".data⟩], 6⟩ : DB) 7 "CAT".data "k2".data none none "d2".data).nextId = 6
       ∧ (upsert_entry (⟨[⟨5, 7, "cat".data, "cat".data, "k".data, "k".data, none, none, "d".data⟩], 6⟩ : DB) 7 "CAT".data "k2".data none none "d2".data).entries.map
           (fun e => (e.id, e.created_at, e.user_id, e.en_norm))
         = (⟨[⟨5, 7, "cat".data, "cat".data, "k".data, "k".data, none, none, "d".data⟩], 6⟩ : DB).entries.map
             (fun e => (e.id, e.created_at, e.user_id, e.en_norm))
       ∧ ∀ e ∈ (upsert_entry (⟨[⟨5, 7, "cat".data, "cat".data, "k".data, "k".data, none, none, "d".data⟩], 6⟩ : DB) 7 "CAT".data "k2".data none none "d2".data).entries,
           e.user_id = 7 → e.en_norm = pyLower (pyStrip "CAT".data) →
           e.en = pyStrip "CAT".data ∧ e.ru = pyStrip "k2".data
           ∧ e.ru_norm = pyLower (pyStrip "k2".data) ∧ e.ex = none ∧ e.tags = none) :=
  ⟨by decide, c10_upsert_conflict_frame
    (⟨[⟨5, 7, "cat".data, "cat".data, "k".data, "k".data, none, none, "d".data⟩], 6⟩ : DB)
    7 "CAT".data "k2".data none none "d2".data
    (⟨5, 7, "cat".data, "cat".data, "k".data, "k".data, none, none, "d".data⟩ : Entry)
    (by decide) rfl (by decide)⟩

/-- C4 witness: adding cat then Cat for one owner yields one record with
the later display values. -/
theorem c4_upsert_same_key_single_record_witness :
    pyLower (pyStrip "cat".data) = pyLower (pyStrip "Cat".data)
    ∧ (count_all (upsert_entry (upsert_entry (⟨[], 1⟩ : DB) 7 "cat".data "k1".data none none "d1".data) 7 "Cat".data "k2".data (some "e".data) (some "t".data) "d2".data) 7
        = count_all (⟨[], 1⟩ : DB) 7 + 1
       ∧ ∃ r : Entry,
          ((upsert_entry (upsert_entry (⟨[], 1⟩ : DB) 7 "cat".data "k1".data none none "d1".data) 7 "Cat".data "k2".data (some "e".data) (some "t".data) "d2".data).entries.filter
            (fun e => e.user_id == 7 && e.en_norm == pyLower (pyStrip "Cat".data))) = [r]
          ∧ r.en = pyStrip "Cat".data ∧ r.ru = pyStrip "k2".data
          ∧ r.ex = some "e".data ∧ r.tags = some "t".data) :=
  ⟨by decide, c4_upsert_same_key_single_record (⟨[], 1⟩ : DB) 7
    "cat".data "k1".data "Cat".data "k2".data none none (some "e".data) (some "t".data)
    "d1".data "d2".data (by decide) (by decide)⟩

end EnglishBot
